import Mathlib

/-!
Shallow embedding of the event-timeline extraction engine of
`src/containerd.rs` (`Containerd::get_events_from_journalctl` and
`Containerd::parse_timestamp`).

Timestamps are modelled as `Int` (microseconds since the epoch, the value
parsed from journalctl's `__REALTIME_TIMESTAMP`; `chrono::DateTime<Utc>`
comparisons coincide with comparisons of the microsecond values).
`str::contains` is modelled by `strContains` (substring containment) and the
two id-extraction regexes by `captureSandboxId` / `captureContainerId`.
The timeline `BTreeMap<String, (DateTime, DateTime)>` is modelled as an
association list with replace-on-insert (`insertTs`), looked up with
`lookupTs`; its `len()` is the list length (keys stay unique).
-/

namespace Sc2

/-! ## String utilities -/

/-- Substring test on `List Char`: does `pat` occur contiguously? -/
def infixOf (pat : List Char) : List Char → Bool
  | [] => pat.isEmpty
  | c :: rest => pat.isPrefixOf (c :: rest) || infixOf pat rest

/-- Models Rust `str::contains(pat)` for string patterns (true substring
containment; the empty pattern is contained in every string, as in Rust). -/
def strContains (hay pat : String) : Bool :=
  infixOf pat.toList hay.toList

/-- Character class `[a-fA-F0-9]` of the id-extraction regexes. -/
def isHexDigitChar (c : Char) : Bool :=
  ('0' ≤ c && c ≤ '9') || ('a' ≤ c && c ≤ 'f') || ('A' ≤ c && c ≤ 'F')

/-- Match `[a-fA-F0-9]+\\\"` at the head of `cs`: a maximal, non-empty run of
hex digits followed by the two characters backslash and double quote.
Backtracking inside `[a-fA-F0-9]+` cannot help, because the character that
ends a shorter run would be a hex digit, not a backslash. -/
def hexCaptureAt (cs : List Char) : Option String :=
  match cs.takeWhile isHexDigitChar, cs.dropWhile isHexDigitChar with
  | [], _ => none
  | run, '\\' :: '"' :: _ => some (String.mk run)
  | _, _ => none

/-- Leftmost match of the regex `<pat>[a-fA-F0-9]+\\\"`, returning the hex
capture group: try every start position left to right. -/
def findCapture (pat : List Char) : List Char → Option String
  | [] => none
  | c :: rest =>
    if pat.isPrefixOf (c :: rest) then
      match hexCaptureAt ((c :: rest).drop pat.length) with
      | some cid => some cid
      | none => findCapture pat rest
    else findCapture pat rest

/-- Literal part of `sandbox_id_regex` (containerd.rs:99-100):
the message text `returns sandbox id \"` (backslash and quote literal). -/
def sandboxIdPat : List Char := "returns sandbox id \\\"".toList

/-- Literal part of `container_id_regex` (containerd.rs:101-102). -/
def containerIdPat : List Char := "returns container id \\\"".toList

/-- Models `sandbox_id_regex.captures(message)` returning the `sbx_id` group. -/
def captureSandboxId (msg : String) : Option String :=
  findCapture sandboxIdPat msg.toList

/-- Models `container_id_regex.captures(message)` returning the `ctr_id` group. -/
def captureContainerId (msg : String) : Option String :=
  findCapture containerIdPat msg.toList

/-! ## Timestamp parsing -/

/-- Numeric value of a decimal digit, `none` for any other character. -/
def charDigit (c : Char) : Option Nat :=
  if '0' ≤ c && c ≤ '9' then some (c.toNat - '0'.toNat) else none

/-- Accumulate the decimal value of a digit string; `none` on a non-digit. -/
def digitsValAux (acc : Nat) : List Char → Option Nat
  | [] => some acc
  | c :: cs =>
    match charDigit c with
    | some d => digitsValAux (acc * 10 + d) cs
    | none => none

/-- Value of a non-empty all-digit string, `none` otherwise. -/
def digitsVal : List Char → Option Nat
  | [] => none
  | cs => digitsValAux 0 cs

/-- Largest `i64` value. -/
def i64Max : Nat := 9223372036854775807

/-- Models `Containerd::parse_timestamp` (containerd.rs:42-49):
`timestamp.parse::<i64>()` (optional sign, one or more decimal digits,
within the `i64` range) followed by `DateTime::from_timestamp_micros`.
Both results are `unwrap`ed in the source, so this returns `none` exactly
where the source panics. (The additional `chrono` date range check of
`from_timestamp_micros` is not modelled; every claim stays far inside it.) -/
def parseTimestamp (s : String) : Option Int :=
  match s.toList with
  | '+' :: cs => (digitsVal cs).bind fun n =>
      if n ≤ i64Max then some (Int.ofNat n) else none
  | '-' :: cs => (digitsVal cs).bind fun n =>
      if n ≤ i64Max + 1 then some (-(Int.ofNat n)) else none
  | cs => (digitsVal cs).bind fun n =>
      if n ≤ i64Max then some (Int.ofNat n) else none

/-! ## The timeline map -/

/-- One timeline: event name to (start, end), as the source's
`BTreeMap<String, (DateTime<Utc>, DateTime<Utc>)>`. -/
abbrev Timeline := List (String × (Int × Int))

/-- Models `BTreeMap::insert`: replace the value when the key is present,
append the binding otherwise (key order is irrelevant to every claim). -/
def insertTs (k : String) (v : Int × Int) : Timeline → Timeline
  | [] => [(k, v)]
  | (k', v') :: rest =>
    if k' = k then (k, v) :: rest else (k', v') :: insertTs k v rest

/-- Models `BTreeMap::get`. -/
def lookupTs (k : String) : Timeline → Option (Int × Int)
  | [] => none
  | (k', v) :: rest => if k' = k then some v else lookupTs k rest

/-! ## The correlation state -/

/-- One parsed log line: the `__REALTIME_TIMESTAMP` microsecond value and the
`MESSAGE` text (containerd.rs:110-115). -/
structure LogEntry where
  ts : Int
  msg : String
deriving DecidableEq, Repr

/-- The loop state of `get_events_from_journalctl` (containerd.rs:82-96):
the output map, the six per-phase pending start timestamps and the three
discovered identifiers. -/
structure ScanState where
  tsMap : Timeline
  runSandboxStart : Option Int
  pullImageStart : Option Int
  userContainerStart : Option Int
  queueProxyStart : Option Int
  userContainerCreate : Option Int
  queueProxyCreate : Option Int
  sbxId : String
  userContainerId : String
  queueProxyContainerId : String
deriving DecidableEq, Repr

/-- The state before the first line (containerd.rs:83-96): empty map, no
pending starts, all ids the empty string. -/
def initState : ScanState :=
  { tsMap := []
    runSandboxStart := none
    pullImageStart := none
    userContainerStart := none
    queueProxyStart := none
    userContainerCreate := none
    queueProxyCreate := none
    sbxId := ""
    userContainerId := ""
    queueProxyContainerId := "" }

/-! ## The four phase sections of the loop body -/

/-- RunPodSandbox completion section (containerd.rs:132-141).
`some st'` models the `continue` taken when the regex captures; `none` means
this section did not fire and the line falls through unchanged.
Note that `run_sandbox_start` is never cleared and that the insert happens
whenever a sandbox id is captured while a start is pending. -/
def trySandboxDone (st : ScanState) (ts : Int) (msg : String) : Option ScanState :=
  if strContains msg "RunPodSandbox" && strContains msg "returns sandbox id" then
    match captureSandboxId msg with
    | some sid =>
      match st.runSandboxStart with
      | some start =>
        some { st with sbxId := sid
                       tsMap := insertTs "RunPodSandbox" (start, ts) st.tsMap }
      | none => some { st with sbxId := sid }
    | none => none
  else none

/-- PullImage section (containerd.rs:143-157). `some st'` models a taken
`continue`. The first branch fires on any `PullImage` line while no pull
start is recorded; `pull_image_start` is never cleared afterwards. -/
def tryPull (st : ScanState) (ts : Int) (msg : String) : Option ScanState :=
  if st.pullImageStart.isNone && strContains msg "PullImage" then
    some { st with pullImageStart := some ts }
  else if strContains msg "PullImage" && strContains msg "returns image reference"
      && !st.pullImageStart.isNone then
    match st.pullImageStart with
    | some start =>
      some { st with tsMap := insertTs "PullImage" (start, ts) st.tsMap }
    | none => some st
  else none

/-- CreateContainer, user-container branch (containerd.rs:167-189). The
returned Bool is true when the source executes `continue` (the start branch);
the completion branch falls through to the StartContainer section. -/
def createUser (st : ScanState) (ts : Int) (msg : String) : ScanState × Bool :=
  match st.userContainerStart with
  | none => ({ st with userContainerStart := some ts }, true)
  | some start =>
    if strContains msg "returns container id" then
      match captureContainerId msg with
      | some cid =>
        ({ st with userContainerId := cid
                   tsMap := insertTs "CreateContainerUserContainer" (start, ts) st.tsMap
                   userContainerStart := none }, false)
      | none => (st, false)
    else (st, false)

/-- CreateContainer, queue-proxy branch (containerd.rs:190-213). -/
def createQueue (st : ScanState) (ts : Int) (msg : String) : ScanState × Bool :=
  match st.queueProxyStart with
  | none => ({ st with queueProxyStart := some ts }, true)
  | some start =>
    if strContains msg "returns container id" then
      match captureContainerId msg with
      | some cid =>
        ({ st with queueProxyContainerId := cid
                   tsMap := insertTs "CreateContainerQueueProxy" (start, ts) st.tsMap
                   queueProxyStart := none }, false)
      | none => (st, false)
    else (st, false)

/-- CreateContainer section (containerd.rs:159-214): guarded by a non-empty,
contained sandbox id; `user-container` is tested before `queue-proxy`. -/
def stepCreate (st : ScanState) (ts : Int) (msg : String) : ScanState × Bool :=
  if !st.sbxId.isEmpty && strContains msg "CreateContainer" && strContains msg st.sbxId then
    if strContains msg "user-container" then createUser st ts msg
    else if strContains msg "queue-proxy" then createQueue st ts msg
    else (st, false)
  else (st, false)

/-- StartContainer, user-container branch (containerd.rs:221-235). -/
def startUser (st : ScanState) (ts : Int) (msg : String) : ScanState :=
  match st.userContainerCreate with
  | none => { st with userContainerCreate := some ts }
  | some start =>
    if strContains msg "returns successfully" then
      { st with tsMap := insertTs "StartContainerUserContainer" (start, ts) st.tsMap
                userContainerCreate := none }
    else st

/-- StartContainer, queue-proxy branch (containerd.rs:236-251). -/
def startQueue (st : ScanState) (ts : Int) (msg : String) : ScanState :=
  match st.queueProxyCreate with
  | none => { st with queueProxyCreate := some ts }
  | some start =>
    if strContains msg "returns successfully" then
      { st with tsMap := insertTs "StartContainerQueueProxy" (start, ts) st.tsMap
                queueProxyCreate := none }
    else st

/-- StartContainer section (containerd.rs:216-252): the stored user container
id is tested first, then the queue-proxy id (both are initially `""`, and
`str::contains("")` is true for every message). -/
def stepStart (st : ScanState) (ts : Int) (msg : String) : ScanState :=
  if strContains msg "StartContainer" then
    if strContains msg st.userContainerId then startUser st ts msg
    else if strContains msg st.queueProxyContainerId then startQueue st ts msg
    else st
  else st

/-! ## The loop body and the scan -/

/-- One iteration of the parsing loop of `get_events_from_journalctl` on an
already extracted (timestamp, message) pair (containerd.rs:117-253):
cutoff filter, RunPodSandbox start branch, then the four sections in source
order, with `continue` short-circuiting and the CreateContainer completion
branch falling through into the StartContainer section. -/
def processEntry (dep : String) (cutoff : Int) (st : ScanState) (e : LogEntry) : ScanState :=
  if e.ts < cutoff then st
  else if st.runSandboxStart.isNone && strContains e.msg "RunPodSandbox"
      && strContains e.msg dep then
    { st with runSandboxStart := some e.ts }
  else
    match trySandboxDone st e.ts e.msg with
    | some st' => st'
    | none =>
      match tryPull st e.ts e.msg with
      | some st' => st'
      | none =>
        match stepCreate st e.ts e.msg with
        | (st', true) => st'
        | (st', false) => stepStart st' e.ts e.msg

/-- The whole scan over a stream of already parsed entries, starting from the
fresh state (containerd.rs:105-254). -/
def processEntries (dep : String) (cutoff : Int) (entries : List LogEntry) : ScanState :=
  entries.foldl (processEntry dep cutoff) initState

/-- The timeline returned by the scan (containerd.rs:273). -/
def getEvents (dep : String) (cutoff : Int) (entries : List LogEntry) : Timeline :=
  (processEntries dep cutoff entries).tsMap

/-- `num_expected_events` (containerd.rs:266): sandbox + pull + two creations
+ two starts. -/
def numExpectedEvents : Nat := 6

/-- Whether the completeness warning of containerd.rs:267-271 fires:
the map length differs from the expected six events. -/
def completenessWarning (m : Timeline) : Bool :=
  m.length != numExpectedEvents

/-- The scan result together with the completeness warning flag
(containerd.rs:261-273): the partial map is returned either way. -/
def getEventsWithWarning (dep : String) (cutoff : Int) (entries : List LogEntry) :
    Timeline × Bool :=
  (getEvents dep cutoff entries, completenessWarning (getEvents dep cutoff entries))

/-! ## The raw line layer

`get_events_from_journalctl` reads raw journalctl lines. A raw line either
fails `serde_json::from_str` (the source `unwrap`s and panics), or is a JSON
record whose `__REALTIME_TIMESTAMP` and `MESSAGE` fields may be absent or
non-strings (`as_str().unwrap_or("")`). We model a raw line by this parse
outcome; panics become `Except.error`. -/

/-- A JSON field value as seen through `Value::as_str`. -/
inductive JsonField where
  | str (s : String)
  | nonStr
deriving DecidableEq, Repr

/-- Models `as_str().unwrap_or("")` (containerd.rs:113-114). -/
def JsonField.asStrOr : JsonField → String
  | .str s => s
  | .nonStr => ""

/-- One raw journalctl line, by its `serde_json::from_str::<Value>` outcome:
either invalid JSON, or a record with the two fields the loop reads
(possibly absent). -/
inductive RawLine where
  | invalid
  | record (realtimeTimestamp : Option JsonField) (message : Option JsonField)
deriving DecidableEq, Repr

/-- The loop body on one raw line (containerd.rs:105-115): invalid JSON
panics (`serde_json::from_str(&line).unwrap()`); a record missing either
field is skipped silently (the `if let` fails); otherwise the timestamp
string is parsed (panicking on failure) and the entry is processed. -/
def processRawLine (dep : String) (cutoff : Int) (st : ScanState) :
    RawLine → Except String ScanState
  | .invalid => .error "serde_json unwrap panic"
  | .record ts? msg? =>
    match ts?, msg? with
    | some tf, some mf =>
      match parseTimestamp tf.asStrOr with
      | some ts => .ok (processEntry dep cutoff st { ts := ts, msg := mf.asStrOr })
      | none => .error "parse_timestamp unwrap panic"
    | _, _ => .ok st

/-- The scan over raw lines; the first panic aborts the whole run. -/
def processRawLines (dep : String) (cutoff : Int) (st : ScanState) :
    List RawLine → Except String ScanState
  | [] => .ok st
  | l :: ls =>
    match processRawLine dep cutoff st l with
    | .ok st' => processRawLines dep cutoff st' ls
    | .error e => .error e

/-- `Containerd::get_events_from_journalctl` on a given raw line stream:
the returned timeline, or the panic that aborted the scan. -/
def getEventsFromJournalctl (dep : String) (cutoff : Int) (ls : List RawLine) :
    Except String Timeline :=
  (processRawLines dep cutoff initState ls).map fun st => st.tsMap

end Sc2

namespace Sc2

/-! ## Concrete streams used by the claims -/

/-- The eight-line scenario of the spec, in the code's vocabulary, with the
container id left as a parameter: deployment `dep-42`, sandbox id `abc123`,
timestamps 1..8 (cutoff 0 is before all of them). The journald `MESSAGE`
text carries the gRPC response with escaped quotes, so the id sites read
backslash-quote-id-backslash-quote, as the source regexes expect. -/
def scenario (cid : String) : List LogEntry :=
  [ { ts := 1, msg := "RunPodSandbox for sandbox name dep-42 uid 7f" },
    { ts := 2, msg := "RunPodSandbox for sandbox name dep-42 returns sandbox id \\\"abc123\\\"" },
    { ts := 3, msg := "PullImage docker.io/coco/helloworld-py:unencrypted" },
    { ts := 4, msg := "PullImage docker.io/coco/helloworld-py:unencrypted returns image reference sha256:77af" },
    { ts := 5, msg := "CreateContainer within sandbox abc123 for container name user-container" },
    { ts := 6, msg := "CreateContainer within sandbox abc123 for container name user-container returns container id \\\"" ++ cid ++ "\\\"" },
    { ts := 7, msg := "StartContainer for " ++ cid },
    { ts := 8, msg := "StartContainer for " ++ cid ++ " returns successfully" } ]

end Sc2

namespace Sc2

/-- C1: with the claim's literal container id `ctr1` — whose characters `t`
and `r` are outside the regex class `[a-fA-F0-9]` — the container-id regex
never captures, so the scan returns only three intervals and no
`CreateContainerUserContainer` entry, contradicting the claimed four-entry
timeline. (The `StartContainer` lines are still attributed to the
user-container role, because the stored user container id is the empty
string, which every message contains.) -/
theorem scenario_literal_id_three_events :
    getEvents "dep-42" 0 (scenario "ctr1") =
      [("RunPodSandbox", (1, 2)), ("PullImage", (3, 4)),
       ("StartContainerUserContainer", (7, 8))] ∧
    lookupTs "CreateContainerUserContainer" (getEvents "dep-42" 0 (scenario "ctr1")) = none ∧
    (getEvents "dep-42" 0 (scenario "ctr1")).length = 3 := by
  decide

/-- C1 (amended): with a hexadecimal container id (containerd ids are hex;
here `c121`), the eight-line scenario yields exactly the four claimed
entries RunPodSandbox=(t0,t1), PullImage=(t2,t3),
CreateContainerUserContainer=(t4,t5), StartContainerUserContainer=(t6,t7)
(timestamps 1..8, cutoff 0), and the completeness warning fires because
only 4 of the 6 expected events were found. -/
theorem scenario_hex_id_four_events :
    lookupTs "RunPodSandbox" (getEvents "dep-42" 0 (scenario "c121")) = some (1, 2) ∧
    lookupTs "PullImage" (getEvents "dep-42" 0 (scenario "c121")) = some (3, 4) ∧
    lookupTs "CreateContainerUserContainer" (getEvents "dep-42" 0 (scenario "c121"))
      = some (5, 6) ∧
    lookupTs "StartContainerUserContainer" (getEvents "dep-42" 0 (scenario "c121"))
      = some (7, 8) ∧
    (getEvents "dep-42" 0 (scenario "c121")).length = 4 ∧
    getEventsWithWarning "dep-42" 0 (scenario "c121")
      = (getEvents "dep-42" 0 (scenario "c121"), true) := by
  decide

/-- C4: on a stream where no container id has been discovered, a
`StartContainer` line is not ignored: the stored user container id is still
the empty string, every message contains the empty string, so the line is
attributed to the user-container role, sets its pending start, and a
following completion emits a `StartContainerUserContainer` interval. -/
theorem startcontainer_empty_id_attributed :
    getEvents "dep-42" 0
      [ { ts := 1, msg := "StartContainer for the app" },
        { ts := 2, msg := "StartContainer for the app returns successfully" } ]
      = [("StartContainerUserContainer", (1, 2))] := by
  decide

/-- C5 counterexample: a `PullImage ... returns image reference` completion
line arriving while no pull start is pending is not inert — the start
branch of the phase matches it and records its timestamp as the pending
start, so a second identical completion line then emits an interval.
Dropping the orphan line changes the output, contradicting the claim that
such a line does not affect how later lines are processed. -/
theorem orphan_completion_sets_pending :
    getEvents "dep" 0
      [ { ts := 10, msg := "PullImage img returns image reference ref" },
        { ts := 20, msg := "PullImage img returns image reference ref" } ]
      = [("PullImage", (10, 20))] ∧
    getEvents "dep" 0
      [ { ts := 20, msg := "PullImage img returns image reference ref" } ] = [] := by
  decide

/-- C9 counterexample: a line that is not valid JSON aborts the whole scan
(`serde_json::from_str(&line).unwrap()` panics); the remaining lines are
not processed and no timeline is returned, while the same stream without
the malformed line completes and returns the PullImage interval. -/
theorem malformed_line_aborts_scan :
    getEventsFromJournalctl "dep" 0
      [ .record (some (.str "3")) (some (.str "PullImage img")),
        .invalid,
        .record (some (.str "4")) (some (.str "PullImage img returns image reference r")) ]
      = .error "serde_json unwrap panic" ∧
    getEventsFromJournalctl "dep" 0
      [ .record (some (.str "3")) (some (.str "PullImage img")),
        .record (some (.str "4")) (some (.str "PullImage img returns image reference r")) ]
      = .ok [("PullImage", (3, 4))] := by
  exact ⟨rfl, rfl⟩

/-- Sandbox start and completion for deployment `dep-42`. -/
def sandboxStream : List LogEntry :=
  [ { ts := 1, msg := "RunPodSandbox for sandbox name dep-42 uid 7f" },
    { ts := 2, msg := "RunPodSandbox for sandbox name dep-42 returns sandbox id \\\"abc123\\\"" } ]

/-- A sandbox completion line of a different deployment (it does not contain
`dep-42`). -/
def foreignDone : LogEntry :=
  { ts := 3, msg := "RunPodSandbox for sandbox name other-fn returns sandbox id \\\"dead99\\\"" }

/-- C10: sandbox-completion matching is not filtered by the deployment id and
the pending sandbox start is never cleared: after RunPodSandbox=(1,2) has
been emitted for `dep-42`, a later completion line of a different
deployment overwrites the stored sandbox id with `dead99` and re-inserts
RunPodSandbox as (1,3), replacing the emitted interval; the pending start
is still `some 1` afterwards. -/
theorem foreign_sandbox_done_replaces_interval :
    (processEntries "dep-42" 0 sandboxStream).tsMap = [("RunPodSandbox", (1, 2))] ∧
    strContains foreignDone.msg "dep-42" = false ∧
    (processEntries "dep-42" 0 (sandboxStream ++ [foreignDone])).tsMap
      = [("RunPodSandbox", (1, 3))] ∧
    (processEntries "dep-42" 0 (sandboxStream ++ [foreignDone])).sbxId = "dead99" ∧
    (processEntries "dep-42" 0 (sandboxStream ++ [foreignDone])).runSandboxStart = some 1 := by
  decide

end Sc2

namespace Sc2

/-! ## Helper lemmas about the timeline map -/

theorem lookupTs_insertTs_same (k : String) (v : Int × Int) (m : Timeline) :
    lookupTs k (insertTs k v m) = some v := by
  induction m with
  | nil => simp [insertTs, lookupTs]
  | cons hd tl ih =>
    obtain ⟨k', v'⟩ := hd
    unfold insertTs
    by_cases hk : k' = k
    · simp [hk, lookupTs]
    · simp only [if_neg hk]
      unfold lookupTs
      simp [hk, ih]

theorem lookupTs_insertTs_ne (k k' : String) (v : Int × Int) (m : Timeline)
    (h : k ≠ k') : lookupTs k' (insertTs k v m) = lookupTs k' m := by
  induction m with
  | nil => simp [insertTs, lookupTs, if_neg h]
  | cons hd tl ih =>
    obtain ⟨k'', v''⟩ := hd
    unfold insertTs
    by_cases hk : k'' = k
    · subst hk
      simp [lookupTs, if_neg h]
    · simp only [if_neg hk]
      unfold lookupTs
      by_cases hk2 : k'' = k'
      · simp [hk2]
      · simp [hk2, ih]

end Sc2

namespace Sc2

/-! ## Characterizations of the phase sections -/

/-- What the RunPodSandbox completion section can do when it fires: pendings
and container ids are untouched, the guard held, and the map is unchanged
(no pending start) or receives the RunPodSandbox interval. -/
theorem trySandboxDone_spec (st : ScanState) (ts : Int) (msg : String) (st' : ScanState)
    (h : trySandboxDone st ts msg = some st') :
    st'.runSandboxStart = st.runSandboxStart ∧
    st'.pullImageStart = st.pullImageStart ∧
    st'.userContainerStart = st.userContainerStart ∧
    st'.queueProxyStart = st.queueProxyStart ∧
    st'.userContainerCreate = st.userContainerCreate ∧
    st'.queueProxyCreate = st.queueProxyCreate ∧
    st'.userContainerId = st.userContainerId ∧
    st'.queueProxyContainerId = st.queueProxyContainerId ∧
    strContains msg "returns sandbox id" = true ∧
    ((st.runSandboxStart = none ∧ st'.tsMap = st.tsMap) ∨
      ∃ s, st.runSandboxStart = some s ∧
        st'.tsMap = insertTs "RunPodSandbox" (s, ts) st.tsMap) := by
  unfold trySandboxDone at h
  split at h
  · rename_i hcond
    rw [Bool.and_eq_true] at hcond
    split at h
    · rename_i sid hsid
      split at h
      · rename_i s hs
        injection h with h
        subst h
        exact ⟨rfl, rfl, rfl, rfl, rfl, rfl, rfl, rfl, hcond.2,
          Or.inr ⟨s, hs, rfl⟩⟩
      · rename_i hs
        injection h with h
        subst h
        exact ⟨rfl, rfl, rfl, rfl, rfl, rfl, rfl, rfl, hcond.2, Or.inl ⟨hs, rfl⟩⟩
    · exact absurd h (by simp)
  · exact absurd h (by simp)

/-- What the PullImage section can do when it fires: only `pullImageStart`
and the map can change; the start branch records `ts` when nothing is
pending, the completion branch inserts the interval and keeps the pending
start. -/
theorem tryPull_spec (st : ScanState) (ts : Int) (msg : String) (st' : ScanState)
    (h : tryPull st ts msg = some st') :
    st'.runSandboxStart = st.runSandboxStart ∧
    st'.userContainerStart = st.userContainerStart ∧
    st'.queueProxyStart = st.queueProxyStart ∧
    st'.userContainerCreate = st.userContainerCreate ∧
    st'.queueProxyCreate = st.queueProxyCreate ∧
    st'.sbxId = st.sbxId ∧
    st'.userContainerId = st.userContainerId ∧
    st'.queueProxyContainerId = st.queueProxyContainerId ∧
    ((st.pullImageStart = none ∧ st'.pullImageStart = some ts ∧ st'.tsMap = st.tsMap) ∨
      ∃ s, st.pullImageStart = some s ∧ st'.pullImageStart = some s ∧
        strContains msg "returns image reference" = true ∧
        st'.tsMap = insertTs "PullImage" (s, ts) st.tsMap) := by
  unfold tryPull at h
  split at h
  · rename_i hcond
    rw [Bool.and_eq_true] at hcond
    injection h with h
    subst h
    refine ⟨rfl, rfl, rfl, rfl, rfl, rfl, rfl, rfl, Or.inl ⟨?_, rfl, rfl⟩⟩
    exact Option.isNone_iff_eq_none.mp hcond.1
  · split at h
    · rename_i hcond
      rw [Bool.and_eq_true, Bool.and_eq_true] at hcond
      split at h
      · rename_i s hs
        injection h with h
        subst h
        exact ⟨rfl, rfl, rfl, rfl, rfl, rfl, rfl, rfl,
          Or.inr ⟨s, hs, hs, hcond.1.2, rfl⟩⟩
      · rename_i hs
        rw [hs] at hcond
        simp at hcond
    · exact absurd h (by simp)

end Sc2

namespace Sc2

/-- The three possible outcomes of the CreateContainer user branch. -/
theorem createUser_cases (st : ScanState) (ts : Int) (msg : String) :
    (st.userContainerStart = none ∧
      createUser st ts msg = ({ st with userContainerStart := some ts }, true)) ∨
    createUser st ts msg = (st, false) ∨
    (∃ s cid, st.userContainerStart = some s ∧
      strContains msg "returns container id" = true ∧
      captureContainerId msg = some cid ∧
      createUser st ts msg =
        ({ st with userContainerId := cid
                   tsMap := insertTs "CreateContainerUserContainer" (s, ts) st.tsMap
                   userContainerStart := none }, false)) := by
  unfold createUser
  split
  · rename_i hs
    exact Or.inl ⟨hs, rfl⟩
  · rename_i s hs
    split
    · rename_i hret
      split
      · rename_i cid hcid
        exact Or.inr (Or.inr ⟨s, cid, hs, hret, hcid, rfl⟩)
      · exact Or.inr (Or.inl rfl)
    · exact Or.inr (Or.inl rfl)

/-- The three possible outcomes of the CreateContainer queue-proxy branch. -/
theorem createQueue_cases (st : ScanState) (ts : Int) (msg : String) :
    (st.queueProxyStart = none ∧
      createQueue st ts msg = ({ st with queueProxyStart := some ts }, true)) ∨
    createQueue st ts msg = (st, false) ∨
    (∃ s cid, st.queueProxyStart = some s ∧
      strContains msg "returns container id" = true ∧
      captureContainerId msg = some cid ∧
      createQueue st ts msg =
        ({ st with queueProxyContainerId := cid
                   tsMap := insertTs "CreateContainerQueueProxy" (s, ts) st.tsMap
                   queueProxyStart := none }, false)) := by
  unfold createQueue
  split
  · rename_i hs
    exact Or.inl ⟨hs, rfl⟩
  · rename_i s hs
    split
    · rename_i hret
      split
      · rename_i cid hcid
        exact Or.inr (Or.inr ⟨s, cid, hs, hret, hcid, rfl⟩)
      · exact Or.inr (Or.inl rfl)
    · exact Or.inr (Or.inl rfl)

/-- The CreateContainer section either does nothing or runs exactly one of
its two role branches. -/
theorem stepCreate_cases (st : ScanState) (ts : Int) (msg : String) :
    stepCreate st ts msg = (st, false) ∨
    stepCreate st ts msg = createUser st ts msg ∨
    stepCreate st ts msg = createQueue st ts msg := by
  unfold stepCreate
  split
  · split
    · exact Or.inr (Or.inl rfl)
    · split
      · exact Or.inr (Or.inr rfl)
      · exact Or.inl rfl
  · exact Or.inl rfl

/-- The three possible outcomes of the StartContainer user branch. -/
theorem startUser_cases (st : ScanState) (ts : Int) (msg : String) :
    (st.userContainerCreate = none ∧
      startUser st ts msg = { st with userContainerCreate := some ts }) ∨
    startUser st ts msg = st ∨
    (∃ s, st.userContainerCreate = some s ∧
      strContains msg "returns successfully" = true ∧
      startUser st ts msg =
        { st with tsMap := insertTs "StartContainerUserContainer" (s, ts) st.tsMap
                  userContainerCreate := none }) := by
  unfold startUser
  split
  · rename_i hs
    exact Or.inl ⟨hs, rfl⟩
  · rename_i s hs
    split
    · rename_i hret
      exact Or.inr (Or.inr ⟨s, hs, hret, rfl⟩)
    · exact Or.inr (Or.inl rfl)

/-- The three possible outcomes of the StartContainer queue-proxy branch. -/
theorem startQueue_cases (st : ScanState) (ts : Int) (msg : String) :
    (st.queueProxyCreate = none ∧
      startQueue st ts msg = { st with queueProxyCreate := some ts }) ∨
    startQueue st ts msg = st ∨
    (∃ s, st.queueProxyCreate = some s ∧
      strContains msg "returns successfully" = true ∧
      startQueue st ts msg =
        { st with tsMap := insertTs "StartContainerQueueProxy" (s, ts) st.tsMap
                  queueProxyCreate := none }) := by
  unfold startQueue
  split
  · rename_i hs
    exact Or.inl ⟨hs, rfl⟩
  · rename_i s hs
    split
    · rename_i hret
      exact Or.inr (Or.inr ⟨s, hs, hret, rfl⟩)
    · exact Or.inr (Or.inl rfl)

/-- The StartContainer section either does nothing or runs exactly one of
its two role branches. -/
theorem stepStart_cases (st : ScanState) (ts : Int) (msg : String) :
    stepStart st ts msg = st ∨
    stepStart st ts msg = startUser st ts msg ∨
    stepStart st ts msg = startQueue st ts msg := by
  unfold stepStart
  split
  · split
    · exact Or.inr (Or.inl rfl)
    · split
      · exact Or.inr (Or.inr rfl)
      · exact Or.inl rfl
  · exact Or.inl rfl

/-- The loop body takes exactly one of six paths: cutoff skip, sandbox start
branch, sandbox completion section, pull section, create section with
`continue`, or create section falling through into the start section. -/
theorem processEntry_cases (dep : String) (cutoff : Int) (st : ScanState) (e : LogEntry) :
    processEntry dep cutoff st e = st ∨
    (st.runSandboxStart = none ∧
      processEntry dep cutoff st e = { st with runSandboxStart := some e.ts }) ∨
    trySandboxDone st e.ts e.msg = some (processEntry dep cutoff st e) ∨
    tryPull st e.ts e.msg = some (processEntry dep cutoff st e) ∨
    (stepCreate st e.ts e.msg = (processEntry dep cutoff st e, true)) ∨
    ((stepCreate st e.ts e.msg).2 = false ∧
      processEntry dep cutoff st e = stepStart (stepCreate st e.ts e.msg).1 e.ts e.msg) := by
  unfold processEntry
  split
  · exact Or.inl rfl
  · split
    · rename_i hcond
      rw [Bool.and_eq_true, Bool.and_eq_true] at hcond
      exact Or.inr (Or.inl ⟨Option.isNone_iff_eq_none.mp hcond.1.1, rfl⟩)
    · split
      · rename_i st' hst'
        exact Or.inr (Or.inr (Or.inl hst'))
      · split
        · rename_i st' hst'
          exact Or.inr (Or.inr (Or.inr (Or.inl hst')))
        · split
          · rename_i st' hst'
            exact Or.inr (Or.inr (Or.inr (Or.inr (Or.inl (by rw [hst'])))))
          · rename_i st' hst'
            refine Or.inr (Or.inr (Or.inr (Or.inr (Or.inr ⟨by rw [hst'], by rw [hst']⟩))))

end Sc2

namespace Sc2

/-! ## Cutoff filtering -/

/-- Entries strictly before the cutoff leave the state untouched
(containerd.rs:117-120). -/
theorem processEntry_precutoff (dep : String) (cutoff : Int) (st : ScanState)
    (e : LogEntry) (h : e.ts < cutoff) : processEntry dep cutoff st e = st := by
  unfold processEntry
  rw [if_pos h]

/-- Folding the loop body over a stream equals folding it over the stream
with the pre-cutoff entries removed. -/
theorem foldl_processEntry_filter (dep : String) (cutoff : Int) (entries : List LogEntry) :
    ∀ st : ScanState,
      entries.foldl (processEntry dep cutoff) st
        = (entries.filter fun e => !decide (e.ts < cutoff)).foldl
            (processEntry dep cutoff) st := by
  induction entries with
  | nil => intro st; rfl
  | cons e rest ih =>
    intro st
    by_cases h : e.ts < cutoff
    · rw [List.foldl_cons, processEntry_precutoff dep cutoff st e h, List.filter_cons]
      simpa [h] using ih st
    · rw [List.foldl_cons, List.filter_cons]
      simpa [h, List.foldl_cons] using ih (processEntry dep cutoff st e)

/-- C3: entries whose timestamp is strictly before the cutoff never influence
the output: the scan over the full stream returns the same timeline and the
same completeness warning as the scan over the stream with all pre-cutoff
entries removed. -/
theorem cutoff_entries_never_influence (dep : String) (cutoff : Int)
    (entries : List LogEntry) :
    getEventsWithWarning dep cutoff entries
      = getEventsWithWarning dep cutoff
          (entries.filter fun e => !decide (e.ts < cutoff)) := by
  unfold getEventsWithWarning getEvents processEntries
  rw [foldl_processEntry_filter]

/-- C8: when fewer than the six expected events were matched, the scan still
returns the partial timeline it accumulated, paired with the completeness
warning; nothing fails. -/
theorem incomplete_timeline_warns (dep : String) (cutoff : Int) (entries : List LogEntry)
    (h : (getEvents dep cutoff entries).length < numExpectedEvents) :
    getEventsWithWarning dep cutoff entries = (getEvents dep cutoff entries, true) := by
  have hne : (getEvents dep cutoff entries).length ≠ numExpectedEvents := Nat.ne_of_lt h
  simp [getEventsWithWarning, completenessWarning, hne]

/-- Witness for `incomplete_timeline_warns` at the empty stream: zero events
were matched, the partial (empty) timeline is returned with the warning. -/
theorem incomplete_timeline_warns_witness :
    getEventsWithWarning "dep-42" 0 [] = (getEvents "dep-42" 0 [], true) :=
  incomplete_timeline_warns "dep-42" 0 [] (by decide)

end Sc2

namespace Sc2

/-! ## The ordering invariant -/

/-- All pending start timestamps held in the state are at most `t`. -/
structure PendingBounded (st : ScanState) (t : Int) : Prop where
  sandbox : ∀ p, st.runSandboxStart = some p → p ≤ t
  pull : ∀ p, st.pullImageStart = some p → p ≤ t
  ucStart : ∀ p, st.userContainerStart = some p → p ≤ t
  qpStart : ∀ p, st.queueProxyStart = some p → p ≤ t
  ucCreate : ∀ p, st.userContainerCreate = some p → p ≤ t
  qpCreate : ∀ p, st.queueProxyCreate = some p → p ≤ t

/-- Every interval recorded in the map satisfies start at most end. -/
def MapOrdered (m : Timeline) : Prop :=
  ∀ k s e, lookupTs k m = some (s, e) → s ≤ e

theorem mapOrdered_insert (m : Timeline) (k : String) (s t : Int)
    (hm : MapOrdered m) (h : s ≤ t) : MapOrdered (insertTs k (s, t) m) := by
  intro k' s' e' h'
  by_cases hk : k = k'
  · subst hk
    rw [lookupTs_insertTs_same] at h'
    simp at h'
    omega
  · rw [lookupTs_insertTs_ne _ _ _ _ hk] at h'
    exact hm k' s' e' h'

theorem createUser_bound (st : ScanState) (ts : Int) (msg : String)
    (hb : PendingBounded st ts) (hm : MapOrdered st.tsMap) :
    MapOrdered (createUser st ts msg).1.tsMap ∧
    ∀ t', ts ≤ t' → PendingBounded st t' → PendingBounded (createUser st ts msg).1 t' := by
  rcases createUser_cases st ts msg with ⟨hs, h⟩ | h | ⟨s, cid, hs, _, _, h⟩ <;> rw [h]
  · refine ⟨hm, fun t' ht' hb' => ⟨hb'.sandbox, hb'.pull, ?_, hb'.qpStart,
      hb'.ucCreate, hb'.qpCreate⟩⟩
    intro p hp
    simp only [Option.some.injEq] at hp
    omega
  · exact ⟨hm, fun t' _ hb' => hb'⟩
  · refine ⟨mapOrdered_insert _ _ _ _ hm (hb.ucStart s hs), fun t' ht' hb' =>
      ⟨hb'.sandbox, hb'.pull, ?_, hb'.qpStart, hb'.ucCreate, hb'.qpCreate⟩⟩
    intro p hp
    simp at hp

theorem createQueue_bound (st : ScanState) (ts : Int) (msg : String)
    (hb : PendingBounded st ts) (hm : MapOrdered st.tsMap) :
    MapOrdered (createQueue st ts msg).1.tsMap ∧
    ∀ t', ts ≤ t' → PendingBounded st t' → PendingBounded (createQueue st ts msg).1 t' := by
  rcases createQueue_cases st ts msg with ⟨hs, h⟩ | h | ⟨s, cid, hs, _, _, h⟩ <;> rw [h]
  · refine ⟨hm, fun t' ht' hb' => ⟨hb'.sandbox, hb'.pull, hb'.ucStart, ?_,
      hb'.ucCreate, hb'.qpCreate⟩⟩
    intro p hp
    simp only [Option.some.injEq] at hp
    omega
  · exact ⟨hm, fun t' _ hb' => hb'⟩
  · refine ⟨mapOrdered_insert _ _ _ _ hm (hb.qpStart s hs), fun t' ht' hb' =>
      ⟨hb'.sandbox, hb'.pull, hb'.ucStart, ?_, hb'.ucCreate, hb'.qpCreate⟩⟩
    intro p hp
    simp at hp

theorem stepCreate_bound (st : ScanState) (ts : Int) (msg : String)
    (hb : PendingBounded st ts) (hm : MapOrdered st.tsMap) :
    MapOrdered (stepCreate st ts msg).1.tsMap ∧
    ∀ t', ts ≤ t' → PendingBounded st t' → PendingBounded (stepCreate st ts msg).1 t' := by
  rcases stepCreate_cases st ts msg with h | h | h <;> rw [h]
  · exact ⟨hm, fun t' _ hb' => hb'⟩
  · exact createUser_bound st ts msg hb hm
  · exact createQueue_bound st ts msg hb hm

theorem startUser_bound (st : ScanState) (ts : Int) (msg : String)
    (hb : PendingBounded st ts) (hm : MapOrdered st.tsMap) :
    MapOrdered (startUser st ts msg).tsMap ∧
    ∀ t', ts ≤ t' → PendingBounded st t' → PendingBounded (startUser st ts msg) t' := by
  rcases startUser_cases st ts msg with ⟨hs, h⟩ | h | ⟨s, hs, _, h⟩ <;> rw [h]
  · refine ⟨hm, fun t' ht' hb' => ⟨hb'.sandbox, hb'.pull, hb'.ucStart, hb'.qpStart,
      ?_, hb'.qpCreate⟩⟩
    intro p hp
    simp only [Option.some.injEq] at hp
    omega
  · exact ⟨hm, fun t' _ hb' => hb'⟩
  · refine ⟨mapOrdered_insert _ _ _ _ hm (hb.ucCreate s hs), fun t' ht' hb' =>
      ⟨hb'.sandbox, hb'.pull, hb'.ucStart, hb'.qpStart, ?_, hb'.qpCreate⟩⟩
    intro p hp
    simp at hp

theorem startQueue_bound (st : ScanState) (ts : Int) (msg : String)
    (hb : PendingBounded st ts) (hm : MapOrdered st.tsMap) :
    MapOrdered (startQueue st ts msg).tsMap ∧
    ∀ t', ts ≤ t' → PendingBounded st t' → PendingBounded (startQueue st ts msg) t' := by
  rcases startQueue_cases st ts msg with ⟨hs, h⟩ | h | ⟨s, hs, _, h⟩ <;> rw [h]
  · refine ⟨hm, fun t' ht' hb' => ⟨hb'.sandbox, hb'.pull, hb'.ucStart, hb'.qpStart,
      hb'.ucCreate, ?_⟩⟩
    intro p hp
    simp only [Option.some.injEq] at hp
    omega
  · exact ⟨hm, fun t' _ hb' => hb'⟩
  · refine ⟨mapOrdered_insert _ _ _ _ hm (hb.qpCreate s hs), fun t' ht' hb' =>
      ⟨hb'.sandbox, hb'.pull, hb'.ucStart, hb'.qpStart, hb'.ucCreate, ?_⟩⟩
    intro p hp
    simp at hp

theorem stepStart_bound (st : ScanState) (ts : Int) (msg : String)
    (hb : PendingBounded st ts) (hm : MapOrdered st.tsMap) :
    MapOrdered (stepStart st ts msg).tsMap ∧
    ∀ t', ts ≤ t' → PendingBounded st t' → PendingBounded (stepStart st ts msg) t' := by
  rcases stepStart_cases st ts msg with h | h | h <;> rw [h]
  · exact ⟨hm, fun t' _ hb' => hb'⟩
  · exact startUser_bound st ts msg hb hm
  · exact startQueue_bound st ts msg hb hm

/-- One loop iteration keeps the map ordered and keeps every pending start
bounded by any later timestamp, provided the current entry's timestamp
bounds the previous pendings. -/
theorem processEntry_bound (dep : String) (cutoff : Int) (st : ScanState) (e : LogEntry)
    (hb : PendingBounded st e.ts) (hm : MapOrdered st.tsMap) :
    MapOrdered (processEntry dep cutoff st e).tsMap ∧
    ∀ t', e.ts ≤ t' → PendingBounded st t' →
      PendingBounded (processEntry dep cutoff st e) t' := by
  rcases processEntry_cases dep cutoff st e with h | ⟨hrs, h⟩ | h | h | h | ⟨hc, h⟩
  · rw [h]
    exact ⟨hm, fun t' _ hb' => hb'⟩
  · rw [h]
    refine ⟨hm, fun t' ht' hb' => ⟨?_, hb'.pull, hb'.ucStart, hb'.qpStart,
      hb'.ucCreate, hb'.qpCreate⟩⟩
    intro p hp
    simp only [Option.some.injEq] at hp
    omega
  · obtain ⟨h1, h2, h3, h4, h5, h6, _, _, _, hmap⟩ := trySandboxDone_spec st e.ts e.msg _ h
    constructor
    · rcases hmap with ⟨_, hmm⟩ | ⟨s, hs, hmm⟩
      · rw [hmm]
        exact hm
      · rw [hmm]
        exact mapOrdered_insert _ _ _ _ hm (hb.sandbox s hs)
    · intro t' ht' hb'
      exact ⟨fun p hp => hb'.sandbox p (h1.symm.trans hp),
        fun p hp => hb'.pull p (h2.symm.trans hp),
        fun p hp => hb'.ucStart p (h3.symm.trans hp),
        fun p hp => hb'.qpStart p (h4.symm.trans hp),
        fun p hp => hb'.ucCreate p (h5.symm.trans hp),
        fun p hp => hb'.qpCreate p (h6.symm.trans hp)⟩
  · obtain ⟨h1, h3, h4, h5, h6, _, _, _, hpull⟩ := tryPull_spec st e.ts e.msg _ h
    constructor
    · rcases hpull with ⟨_, _, hmm⟩ | ⟨s, hs, _, _, hmm⟩
      · rw [hmm]
        exact hm
      · rw [hmm]
        exact mapOrdered_insert _ _ _ _ hm (hb.pull s hs)
    · intro t' ht' hb'
      refine ⟨fun p hp => hb'.sandbox p (h1.symm.trans hp), ?_,
        fun p hp => hb'.ucStart p (h3.symm.trans hp),
        fun p hp => hb'.qpStart p (h4.symm.trans hp),
        fun p hp => hb'.ucCreate p (h5.symm.trans hp),
        fun p hp => hb'.qpCreate p (h6.symm.trans hp)⟩
      rcases hpull with ⟨_, hsome, _⟩ | ⟨s, hs, hsome, _, _⟩
      · intro p hp
        rw [hsome] at hp
        simp only [Option.some.injEq] at hp
        omega
      · intro p hp
        rw [hsome] at hp
        simp only [Option.some.injEq] at hp
        exact hp ▸ hb'.pull s hs
  · have h1 : (stepCreate st e.ts e.msg).1 = processEntry dep cutoff st e := by rw [h]
    rw [← h1]
    exact stepCreate_bound st e.ts e.msg hb hm
  · rw [h]
    obtain ⟨hmor, hpen⟩ := stepCreate_bound st e.ts e.msg hb hm
    obtain ⟨hmor2, hpen2⟩ := stepStart_bound _ e.ts e.msg (hpen e.ts le_rfl hb) hmor
    exact ⟨hmor2, fun t' ht' hb' => hpen2 t' ht' (hpen t' ht' hb')⟩

end Sc2

namespace Sc2

/-- Scanning a stream whose timestamps are pairwise non-decreasing keeps the
map ordered, starting from any state whose pendings are bounded by every
entry of the stream. -/
theorem scan_bound (dep : String) (cutoff : Int) (entries : List LogEntry) :
    ∀ st : ScanState,
      List.Pairwise (fun a b => a.ts ≤ b.ts) entries →
      (∀ e ∈ entries, PendingBounded st e.ts) →
      MapOrdered st.tsMap →
      MapOrdered (entries.foldl (processEntry dep cutoff) st).tsMap := by
  induction entries with
  | nil =>
    intro st _ _ hm
    exact hm
  | cons e rest ih =>
    intro st hp hball hm
    rw [List.foldl_cons]
    obtain ⟨hm', hpen⟩ := processEntry_bound dep cutoff st e
      (hball e (List.mem_cons_self e rest)) hm
    refine ih _ (List.Pairwise.of_cons hp) ?_ hm'
    intro e' he'
    exact hpen e'.ts (List.rel_of_pairwise_cons hp he')
      (hball e' (List.mem_cons_of_mem e he'))

/-- C2: for every deployment id, cutoff, and stream whose post-cutoff entries
carry non-decreasing timestamps, every event present in the returned
timeline maps to a pair with start at most end. -/
theorem timeline_ordering_invariant (dep : String) (cutoff : Int) (entries : List LogEntry)
    (hsort : List.Pairwise (fun a b => a.ts ≤ b.ts)
      (entries.filter fun e => !decide (e.ts < cutoff)))
    (k : String) (s e : Int)
    (hlk : lookupTs k (getEvents dep cutoff entries) = some (s, e)) :
    s ≤ e := by
  unfold getEvents processEntries at hlk
  rw [foldl_processEntry_filter] at hlk
  refine scan_bound dep cutoff _ initState hsort ?_ ?_ k s e hlk
  · intro e' _
    constructor <;> (intro p hp; simp [initState] at hp)
  · intro k' s' e' h'
    simp [initState, lookupTs] at h'

/-- Witness for `timeline_ordering_invariant`: a sorted two-line pull stream
produces the PullImage interval (1, 2), and the theorem yields 1 ≤ 2. -/
theorem timeline_ordering_invariant_witness :
    lookupTs "PullImage"
      (getEvents "dep" 0
        [ { ts := 1, msg := "PullImage img" },
          { ts := 2, msg := "PullImage img returns image reference r" } ])
      = some (1, 2) ∧ (1 : Int) ≤ 2 :=
  ⟨by decide,
    timeline_ordering_invariant "dep" 0
      [ { ts := 1, msg := "PullImage img" },
        { ts := 2, msg := "PullImage img returns image reference r" } ]
      (by decide) "PullImage" 1 2 (by decide)⟩

end Sc2

namespace Sc2

/-! ## Frame lemmas -/

/-- The CreateContainer section never touches the sandbox/pull/start-phase
state, and only ever inserts the two creation keys; a creation key cannot
be inserted while its role has no pending creation start. -/
theorem stepCreate_frame (st : ScanState) (ts : Int) (msg : String) :
    (stepCreate st ts msg).1.runSandboxStart = st.runSandboxStart ∧
    (stepCreate st ts msg).1.pullImageStart = st.pullImageStart ∧
    (stepCreate st ts msg).1.userContainerCreate = st.userContainerCreate ∧
    (stepCreate st ts msg).1.queueProxyCreate = st.queueProxyCreate ∧
    (stepCreate st ts msg).1.sbxId = st.sbxId ∧
    (∀ k, k ≠ "CreateContainerUserContainer" → k ≠ "CreateContainerQueueProxy" →
      lookupTs k (stepCreate st ts msg).1.tsMap = lookupTs k st.tsMap) ∧
    (st.userContainerStart = none →
      lookupTs "CreateContainerUserContainer" (stepCreate st ts msg).1.tsMap
        = lookupTs "CreateContainerUserContainer" st.tsMap) ∧
    (st.queueProxyStart = none →
      lookupTs "CreateContainerQueueProxy" (stepCreate st ts msg).1.tsMap
        = lookupTs "CreateContainerQueueProxy" st.tsMap) := by
  rcases stepCreate_cases st ts msg with h | h | h <;> rw [h]
  · exact ⟨rfl, rfl, rfl, rfl, rfl, fun _ _ _ => rfl, fun _ => rfl, fun _ => rfl⟩
  · rcases createUser_cases st ts msg with ⟨hs, hc⟩ | hc | ⟨s, cid, hs, hret, hcid, hc⟩ <;>
      rw [hc]
    · exact ⟨rfl, rfl, rfl, rfl, rfl, fun _ _ _ => rfl, fun _ => rfl, fun _ => rfl⟩
    · exact ⟨rfl, rfl, rfl, rfl, rfl, fun _ _ _ => rfl, fun _ => rfl, fun _ => rfl⟩
    · refine ⟨rfl, rfl, rfl, rfl, rfl, ?_, ?_, fun _ => ?_⟩
      · intro k hk1 _
        exact lookupTs_insertTs_ne _ _ _ _ fun hh => hk1 hh.symm
      · intro hnone
        rw [hnone] at hs
        exact Option.noConfusion hs
      · exact lookupTs_insertTs_ne _ _ _ _ (by decide)
  · rcases createQueue_cases st ts msg with ⟨hs, hc⟩ | hc | ⟨s, cid, hs, hret, hcid, hc⟩ <;>
      rw [hc]
    · exact ⟨rfl, rfl, rfl, rfl, rfl, fun _ _ _ => rfl, fun _ => rfl, fun _ => rfl⟩
    · exact ⟨rfl, rfl, rfl, rfl, rfl, fun _ _ _ => rfl, fun _ => rfl, fun _ => rfl⟩
    · refine ⟨rfl, rfl, rfl, rfl, rfl, ?_, fun _ => ?_, ?_⟩
      · intro k _ hk2
        exact lookupTs_insertTs_ne _ _ _ _ fun hh => hk2 hh.symm
      · exact lookupTs_insertTs_ne _ _ _ _ (by decide)
      · intro hnone
        rw [hnone] at hs
        exact Option.noConfusion hs

/-- The StartContainer section never touches the sandbox/pull/creation-phase
state or the stored ids, and only ever inserts the two start keys; a start
key cannot be inserted while its role has no pending start. -/
theorem stepStart_frame (st : ScanState) (ts : Int) (msg : String) :
    (stepStart st ts msg).runSandboxStart = st.runSandboxStart ∧
    (stepStart st ts msg).pullImageStart = st.pullImageStart ∧
    (stepStart st ts msg).userContainerStart = st.userContainerStart ∧
    (stepStart st ts msg).queueProxyStart = st.queueProxyStart ∧
    (stepStart st ts msg).sbxId = st.sbxId ∧
    (stepStart st ts msg).userContainerId = st.userContainerId ∧
    (stepStart st ts msg).queueProxyContainerId = st.queueProxyContainerId ∧
    (∀ k, k ≠ "StartContainerUserContainer" → k ≠ "StartContainerQueueProxy" →
      lookupTs k (stepStart st ts msg).tsMap = lookupTs k st.tsMap) ∧
    (st.userContainerCreate = none →
      lookupTs "StartContainerUserContainer" (stepStart st ts msg).tsMap
        = lookupTs "StartContainerUserContainer" st.tsMap) ∧
    (st.queueProxyCreate = none →
      lookupTs "StartContainerQueueProxy" (stepStart st ts msg).tsMap
        = lookupTs "StartContainerQueueProxy" st.tsMap) := by
  rcases stepStart_cases st ts msg with h | h | h <;> rw [h]
  · exact ⟨rfl, rfl, rfl, rfl, rfl, rfl, rfl, fun _ _ _ => rfl, fun _ => rfl, fun _ => rfl⟩
  · rcases startUser_cases st ts msg with ⟨hs, hc⟩ | hc | ⟨s, hs, hret, hc⟩ <;> rw [hc]
    · exact ⟨rfl, rfl, rfl, rfl, rfl, rfl, rfl, fun _ _ _ => rfl, fun _ => rfl, fun _ => rfl⟩
    · exact ⟨rfl, rfl, rfl, rfl, rfl, rfl, rfl, fun _ _ _ => rfl, fun _ => rfl, fun _ => rfl⟩
    · refine ⟨rfl, rfl, rfl, rfl, rfl, rfl, rfl, ?_, ?_, fun _ => ?_⟩
      · intro k hk1 _
        exact lookupTs_insertTs_ne _ _ _ _ fun hh => hk1 hh.symm
      · intro hnone
        rw [hnone] at hs
        exact Option.noConfusion hs
      · exact lookupTs_insertTs_ne _ _ _ _ (by decide)
  · rcases startQueue_cases st ts msg with ⟨hs, hc⟩ | hc | ⟨s, hs, hret, hc⟩ <;> rw [hc]
    · exact ⟨rfl, rfl, rfl, rfl, rfl, rfl, rfl, fun _ _ _ => rfl, fun _ => rfl, fun _ => rfl⟩
    · exact ⟨rfl, rfl, rfl, rfl, rfl, rfl, rfl, fun _ _ _ => rfl, fun _ => rfl, fun _ => rfl⟩
    · refine ⟨rfl, rfl, rfl, rfl, rfl, rfl, rfl, ?_, fun _ => ?_, ?_⟩
      · intro k _ hk2
        exact lookupTs_insertTs_ne _ _ _ _ fun hh => hk2 hh.symm
      · exact lookupTs_insertTs_ne _ _ _ _ (by decide)
      · intro hnone
        rw [hnone] at hs
        exact Option.noConfusion hs

/-- Without the creation completion marker in the message, the
CreateContainer section inserts nothing and clears no pending start. -/
theorem stepCreate_no_completion (st : ScanState) (ts : Int) (msg : String)
    (hret : strContains msg "returns container id" = false) :
    (stepCreate st ts msg).1.tsMap = st.tsMap ∧
    ((stepCreate st ts msg).1.userContainerStart = st.userContainerStart ∨
      st.userContainerStart = none) ∧
    ((stepCreate st ts msg).1.queueProxyStart = st.queueProxyStart ∨
      st.queueProxyStart = none) := by
  rcases stepCreate_cases st ts msg with h | h | h <;> rw [h]
  · exact ⟨rfl, Or.inl rfl, Or.inl rfl⟩
  · rcases createUser_cases st ts msg with ⟨hs, hc⟩ | hc | ⟨s, cid, hs, hret2, hcid, hc⟩
    · rw [hc]
      exact ⟨rfl, Or.inr hs, Or.inl rfl⟩
    · rw [hc]
      exact ⟨rfl, Or.inl rfl, Or.inl rfl⟩
    · rw [hret] at hret2
      exact Bool.noConfusion hret2
  · rcases createQueue_cases st ts msg with ⟨hs, hc⟩ | hc | ⟨s, cid, hs, hret2, hcid, hc⟩
    · rw [hc]
      exact ⟨rfl, Or.inl rfl, Or.inr hs⟩
    · rw [hc]
      exact ⟨rfl, Or.inl rfl, Or.inl rfl⟩
    · rw [hret] at hret2
      exact Bool.noConfusion hret2

/-- Without the start completion marker in the message, the StartContainer
section inserts nothing and clears no pending start. -/
theorem stepStart_no_completion (st : ScanState) (ts : Int) (msg : String)
    (hret : strContains msg "returns successfully" = false) :
    (stepStart st ts msg).tsMap = st.tsMap ∧
    ((stepStart st ts msg).userContainerCreate = st.userContainerCreate ∨
      st.userContainerCreate = none) ∧
    ((stepStart st ts msg).queueProxyCreate = st.queueProxyCreate ∨
      st.queueProxyCreate = none) := by
  rcases stepStart_cases st ts msg with h | h | h <;> rw [h]
  · exact ⟨rfl, Or.inl rfl, Or.inl rfl⟩
  · rcases startUser_cases st ts msg with ⟨hs, hc⟩ | hc | ⟨s, hs, hret2, hc⟩
    · rw [hc]
      exact ⟨rfl, Or.inr hs, Or.inl rfl⟩
    · rw [hc]
      exact ⟨rfl, Or.inl rfl, Or.inl rfl⟩
    · rw [hret] at hret2
      exact Bool.noConfusion hret2
  · rcases startQueue_cases st ts msg with ⟨hs, hc⟩ | hc | ⟨s, hs, hret2, hc⟩
    · rw [hc]
      exact ⟨rfl, Or.inl rfl, Or.inr hs⟩
    · rw [hc]
      exact ⟨rfl, Or.inl rfl, Or.inl rfl⟩
    · rw [hret] at hret2
      exact Bool.noConfusion hret2

end Sc2

namespace Sc2

/-- C5 (amended): for every phase and role, a completion line arriving while
no start is pending for that phase/role inserts no interval for that phase
into the results and cannot crash the scan (the step is total) — but it is
not otherwise inert: each phase's start-detection branch matches any line
of its phase while no start is pending, so an orphan completion line is
itself treated as a start line and records the phase's pending start,
which does influence how later lines are processed. -/
theorem orphan_completion_no_interval (dep : String) (cutoff : Int)
    (st : ScanState) (e : LogEntry) :
    (st.runSandboxStart = none →
      lookupTs "RunPodSandbox" (processEntry dep cutoff st e).tsMap
        = lookupTs "RunPodSandbox" st.tsMap) ∧
    (st.pullImageStart = none →
      lookupTs "PullImage" (processEntry dep cutoff st e).tsMap
        = lookupTs "PullImage" st.tsMap) ∧
    (st.userContainerStart = none →
      lookupTs "CreateContainerUserContainer" (processEntry dep cutoff st e).tsMap
        = lookupTs "CreateContainerUserContainer" st.tsMap) ∧
    (st.queueProxyStart = none →
      lookupTs "CreateContainerQueueProxy" (processEntry dep cutoff st e).tsMap
        = lookupTs "CreateContainerQueueProxy" st.tsMap) ∧
    (st.userContainerCreate = none →
      lookupTs "StartContainerUserContainer" (processEntry dep cutoff st e).tsMap
        = lookupTs "StartContainerUserContainer" st.tsMap) ∧
    (st.queueProxyCreate = none →
      lookupTs "StartContainerQueueProxy" (processEntry dep cutoff st e).tsMap
        = lookupTs "StartContainerQueueProxy" st.tsMap) := by
  rcases processEntry_cases dep cutoff st e with h | ⟨hrs, h⟩ | h | h | h | ⟨hc, h⟩
  · rw [h]
    exact ⟨fun _ => rfl, fun _ => rfl, fun _ => rfl, fun _ => rfl, fun _ => rfl, fun _ => rfl⟩
  · rw [h]
    exact ⟨fun _ => rfl, fun _ => rfl, fun _ => rfl, fun _ => rfl, fun _ => rfl, fun _ => rfl⟩
  · obtain ⟨-, -, -, -, -, -, -, -, -, hmap⟩ := trySandboxDone_spec st e.ts e.msg _ h
    have hne : ∀ k : String, k ≠ "RunPodSandbox" →
        lookupTs k (processEntry dep cutoff st e).tsMap = lookupTs k st.tsMap := by
      intro k hk
      rcases hmap with ⟨-, hmm⟩ | ⟨s, -, hmm⟩ <;> rw [hmm]
      exact lookupTs_insertTs_ne _ _ _ _ fun hh => hk hh.symm
    refine ⟨?_, fun _ => hne _ (by decide), fun _ => hne _ (by decide),
      fun _ => hne _ (by decide), fun _ => hne _ (by decide), fun _ => hne _ (by decide)⟩
    intro h0
    rcases hmap with ⟨-, hmm⟩ | ⟨s, hs, hmm⟩
    · rw [hmm]
    · rw [h0] at hs
      exact Option.noConfusion hs
  · obtain ⟨-, -, -, -, -, -, -, -, hpull⟩ := tryPull_spec st e.ts e.msg _ h
    have hne : ∀ k : String, k ≠ "PullImage" →
        lookupTs k (processEntry dep cutoff st e).tsMap = lookupTs k st.tsMap := by
      intro k hk
      rcases hpull with ⟨-, -, hmm⟩ | ⟨s, -, -, -, hmm⟩ <;> rw [hmm]
      exact lookupTs_insertTs_ne _ _ _ _ fun hh => hk hh.symm
    refine ⟨fun _ => hne _ (by decide), ?_, fun _ => hne _ (by decide),
      fun _ => hne _ (by decide), fun _ => hne _ (by decide), fun _ => hne _ (by decide)⟩
    intro h0
    rcases hpull with ⟨-, -, hmm⟩ | ⟨s, hs, -, -, hmm⟩
    · rw [hmm]
    · rw [h0] at hs
      exact Option.noConfusion hs
  · have h1 : (stepCreate st e.ts e.msg).1 = processEntry dep cutoff st e := by rw [h]
    obtain ⟨-, -, -, -, -, fall, fcu, fcq⟩ := stepCreate_frame st e.ts e.msg
    rw [← h1]
    exact ⟨fun _ => fall _ (by decide) (by decide), fun _ => fall _ (by decide) (by decide),
      fcu, fcq, fun _ => fall _ (by decide) (by decide), fun _ => fall _ (by decide) (by decide)⟩
  · obtain ⟨f1, f2, f3, f4, -, fall, fcu, fcq⟩ := stepCreate_frame st e.ts e.msg
    obtain ⟨-, -, -, -, -, -, -, gall, gcu, gcq⟩ :=
      stepStart_frame (stepCreate st e.ts e.msg).1 e.ts e.msg
    rw [h]
    exact ⟨fun _ => (gall _ (by decide) (by decide)).trans (fall _ (by decide) (by decide)),
      fun _ => (gall _ (by decide) (by decide)).trans (fall _ (by decide) (by decide)),
      fun h0 => (gall _ (by decide) (by decide)).trans (fcu h0),
      fun h0 => (gall _ (by decide) (by decide)).trans (fcq h0),
      fun h0 => (gcu (f3.trans h0)).trans (fall _ (by decide) (by decide)),
      fun h0 => (gcq (f4.trans h0)).trans (fall _ (by decide) (by decide))⟩

/-- Witness for `orphan_completion_no_interval`: from the fresh state, a pull
completion line with no pending pull start leaves the PullImage key absent. -/
theorem orphan_completion_no_interval_witness :
    lookupTs "PullImage"
      (processEntry "dep" 0 initState
        { ts := 10, msg := "PullImage img returns image reference ref" }).tsMap
      = lookupTs "PullImage" initState.tsMap :=
  (orphan_completion_no_interval "dep" 0 initState
    { ts := 10, msg := "PullImage img returns image reference ref" }).2.1 rfl

end Sc2

namespace Sc2

/-! ## Duplicate-start helper lemmas -/

/-- Once recorded, the sandbox pending start survives every later line
(the branch that sets it requires it to be unset, and nothing clears it). -/
theorem sandboxPendingPreserved (dep : String) (cutoff : Int) (st : ScanState)
    (e : LogEntry) (t : Int) (h : st.runSandboxStart = some t) :
    (processEntry dep cutoff st e).runSandboxStart = some t := by
  rcases processEntry_cases dep cutoff st e with hc | ⟨hrs, hc⟩ | hc | hc | hc | ⟨hb, hc⟩
  · rw [hc]
    exact h
  · rw [h] at hrs
    exact Option.noConfusion hrs
  · obtain ⟨h1, -⟩ := trySandboxDone_spec st e.ts e.msg _ hc
    exact h1.trans h
  · obtain ⟨h1, -⟩ := tryPull_spec st e.ts e.msg _ hc
    exact h1.trans h
  · have h1 : (stepCreate st e.ts e.msg).1 = processEntry dep cutoff st e := by rw [hc]
    obtain ⟨f1, -⟩ := stepCreate_frame st e.ts e.msg
    rw [← h1]
    exact f1.trans h
  · obtain ⟨f1, -⟩ := stepCreate_frame st e.ts e.msg
    obtain ⟨g1, -⟩ := stepStart_frame (stepCreate st e.ts e.msg).1 e.ts e.msg
    rw [hc]
    exact (g1.trans f1).trans h

/-- Once recorded, the pull pending start survives every later line: the
first `PullImage` occurrence is the only one that ever sets it. -/
theorem pullPendingPreserved (dep : String) (cutoff : Int) (st : ScanState)
    (e : LogEntry) (t : Int) (h : st.pullImageStart = some t) :
    (processEntry dep cutoff st e).pullImageStart = some t := by
  rcases processEntry_cases dep cutoff st e with hc | ⟨hrs, hc⟩ | hc | hc | hc | ⟨hb, hc⟩
  · rw [hc]
    exact h
  · rw [hc]
    exact h
  · obtain ⟨-, h2, -⟩ := trySandboxDone_spec st e.ts e.msg _ hc
    exact h2.trans h
  · obtain ⟨-, -, -, -, -, -, -, -, hpull⟩ := tryPull_spec st e.ts e.msg _ hc
    rcases hpull with ⟨hnone, -, -⟩ | ⟨s, hs, hsome, -, -⟩
    · rw [h] at hnone
      exact Option.noConfusion hnone
    · rw [h] at hs
      injection hs with hh
      rw [hsome, hh]
  · have h1 : (stepCreate st e.ts e.msg).1 = processEntry dep cutoff st e := by rw [hc]
    obtain ⟨-, f2, -⟩ := stepCreate_frame st e.ts e.msg
    rw [← h1]
    exact f2.trans h
  · obtain ⟨-, f2, -⟩ := stepCreate_frame st e.ts e.msg
    obtain ⟨-, g2, -⟩ := stepStart_frame (stepCreate st e.ts e.msg).1 e.ts e.msg
    rw [hc]
    exact (g2.trans f2).trans h

/-- The pull pending start survives any continuation of the stream. -/
theorem foldlPullPreserved (dep : String) (cutoff : Int) (rest : List LogEntry) :
    ∀ (st : ScanState) (t : Int), st.pullImageStart = some t →
      (rest.foldl (processEntry dep cutoff) st).pullImageStart = some t := by
  induction rest with
  | nil =>
    intro st t h
    exact h
  | cons e rest ih =>
    intro st t h
    rw [List.foldl_cons]
    exact ih _ t (pullPendingPreserved dep cutoff st e t h)

/-- A line without the sandbox completion marker leaves the RunPodSandbox
entry of the map unchanged. -/
theorem sandboxKeyUnchanged (dep : String) (cutoff : Int) (st : ScanState)
    (e : LogEntry) (hmsg : strContains e.msg "returns sandbox id" = false) :
    lookupTs "RunPodSandbox" (processEntry dep cutoff st e).tsMap
      = lookupTs "RunPodSandbox" st.tsMap := by
  rcases processEntry_cases dep cutoff st e with hc | ⟨hrs, hc⟩ | hc | hc | hc | ⟨hb, hc⟩
  · rw [hc]
  · rw [hc]
  · obtain ⟨-, -, -, -, -, -, -, -, hret, -⟩ := trySandboxDone_spec st e.ts e.msg _ hc
    rw [hmsg] at hret
    exact Bool.noConfusion hret
  · obtain ⟨-, -, -, -, -, -, -, -, hpull⟩ := tryPull_spec st e.ts e.msg _ hc
    rcases hpull with ⟨-, -, hmm⟩ | ⟨s, -, -, -, hmm⟩ <;> rw [hmm]
    exact lookupTs_insertTs_ne _ _ _ _ (by decide)
  · have h1 : (stepCreate st e.ts e.msg).1 = processEntry dep cutoff st e := by rw [hc]
    obtain ⟨-, -, -, -, -, fall, -⟩ := stepCreate_frame st e.ts e.msg
    rw [← h1]
    exact fall _ (by decide) (by decide)
  · obtain ⟨-, -, -, -, -, fall, -⟩ := stepCreate_frame st e.ts e.msg
    obtain ⟨-, -, -, -, -, -, -, gall, -⟩ :=
      stepStart_frame (stepCreate st e.ts e.msg).1 e.ts e.msg
    rw [hc]
    exact (gall _ (by decide) (by decide)).trans (fall _ (by decide) (by decide))

/-- A line without the pull completion marker leaves the PullImage entry of
the map unchanged. -/
theorem pullKeyUnchanged (dep : String) (cutoff : Int) (st : ScanState)
    (e : LogEntry) (hmsg : strContains e.msg "returns image reference" = false) :
    lookupTs "PullImage" (processEntry dep cutoff st e).tsMap
      = lookupTs "PullImage" st.tsMap := by
  rcases processEntry_cases dep cutoff st e with hc | ⟨hrs, hc⟩ | hc | hc | hc | ⟨hb, hc⟩
  · rw [hc]
  · rw [hc]
  · obtain ⟨-, -, -, -, -, -, -, -, -, hmap⟩ := trySandboxDone_spec st e.ts e.msg _ hc
    rcases hmap with ⟨-, hmm⟩ | ⟨s, -, hmm⟩ <;> rw [hmm]
    exact lookupTs_insertTs_ne _ _ _ _ (by decide)
  · obtain ⟨-, -, -, -, -, -, -, -, hpull⟩ := tryPull_spec st e.ts e.msg _ hc
    rcases hpull with ⟨-, -, hmm⟩ | ⟨s, -, -, hret, hmm⟩
    · rw [hmm]
    · rw [hmsg] at hret
      exact Bool.noConfusion hret
  · have h1 : (stepCreate st e.ts e.msg).1 = processEntry dep cutoff st e := by rw [hc]
    obtain ⟨-, -, -, -, -, fall, -⟩ := stepCreate_frame st e.ts e.msg
    rw [← h1]
    exact fall _ (by decide) (by decide)
  · obtain ⟨-, -, -, -, -, fall, -⟩ := stepCreate_frame st e.ts e.msg
    obtain ⟨-, -, -, -, -, -, -, gall, -⟩ :=
      stepStart_frame (stepCreate st e.ts e.msg).1 e.ts e.msg
    rw [hc]
    exact (gall _ (by decide) (by decide)).trans (fall _ (by decide) (by decide))

end Sc2

namespace Sc2

/-- A duplicate creation start for the user-container role (no completion
marker in the message) leaves the pending start and the creation interval
untouched. -/
theorem createUserDupStart (dep : String) (cutoff : Int) (st : ScanState) (e : LogEntry)
    (t : Int) (h : st.userContainerStart = some t)
    (hmsg : strContains e.msg "returns container id" = false) :
    (processEntry dep cutoff st e).userContainerStart = some t ∧
    lookupTs "CreateContainerUserContainer" (processEntry dep cutoff st e).tsMap
      = lookupTs "CreateContainerUserContainer" st.tsMap := by
  rcases processEntry_cases dep cutoff st e with hc | ⟨hrs, hc⟩ | hc | hc | hc | ⟨hb, hc⟩
  · rw [hc]
    exact ⟨h, rfl⟩
  · rw [hc]
    exact ⟨h, rfl⟩
  · obtain ⟨-, -, h3, -, -, -, -, -, -, hmap⟩ := trySandboxDone_spec st e.ts e.msg _ hc
    refine ⟨h3.trans h, ?_⟩
    rcases hmap with ⟨-, hmm⟩ | ⟨s, -, hmm⟩ <;> rw [hmm]
    exact lookupTs_insertTs_ne _ _ _ _ (by decide)
  · obtain ⟨-, h3, -, -, -, -, -, -, hpull⟩ := tryPull_spec st e.ts e.msg _ hc
    refine ⟨h3.trans h, ?_⟩
    rcases hpull with ⟨-, -, hmm⟩ | ⟨s, -, -, -, hmm⟩ <;> rw [hmm]
    exact lookupTs_insertTs_ne _ _ _ _ (by decide)
  · have h1 : (stepCreate st e.ts e.msg).1 = processEntry dep cutoff st e := by rw [hc]
    obtain ⟨hmap1, hu, -⟩ := stepCreate_no_completion st e.ts e.msg hmsg
    rw [← h1]
    refine ⟨?_, by rw [hmap1]⟩
    rcases hu with hu | hu
    · exact hu.trans h
    · exact Option.noConfusion (h.symm.trans hu)
  · obtain ⟨hmap1, hu, -⟩ := stepCreate_no_completion st e.ts e.msg hmsg
    obtain ⟨-, -, g3, -, -, -, -, gall, -⟩ :=
      stepStart_frame (stepCreate st e.ts e.msg).1 e.ts e.msg
    rw [hc]
    refine ⟨?_, (gall _ (by decide) (by decide)).trans (by rw [hmap1])⟩
    rcases hu with hu | hu
    · exact g3.trans (hu.trans h)
    · exact Option.noConfusion (h.symm.trans hu)

/-- A duplicate creation start for the queue-proxy role leaves the pending
start and the creation interval untouched. -/
theorem createQueueDupStart (dep : String) (cutoff : Int) (st : ScanState) (e : LogEntry)
    (t : Int) (h : st.queueProxyStart = some t)
    (hmsg : strContains e.msg "returns container id" = false) :
    (processEntry dep cutoff st e).queueProxyStart = some t ∧
    lookupTs "CreateContainerQueueProxy" (processEntry dep cutoff st e).tsMap
      = lookupTs "CreateContainerQueueProxy" st.tsMap := by
  rcases processEntry_cases dep cutoff st e with hc | ⟨hrs, hc⟩ | hc | hc | hc | ⟨hb, hc⟩
  · rw [hc]
    exact ⟨h, rfl⟩
  · rw [hc]
    exact ⟨h, rfl⟩
  · obtain ⟨-, -, -, h4, -, -, -, -, -, hmap⟩ := trySandboxDone_spec st e.ts e.msg _ hc
    refine ⟨h4.trans h, ?_⟩
    rcases hmap with ⟨-, hmm⟩ | ⟨s, -, hmm⟩ <;> rw [hmm]
    exact lookupTs_insertTs_ne _ _ _ _ (by decide)
  · obtain ⟨-, -, h4, -, -, -, -, -, hpull⟩ := tryPull_spec st e.ts e.msg _ hc
    refine ⟨h4.trans h, ?_⟩
    rcases hpull with ⟨-, -, hmm⟩ | ⟨s, -, -, -, hmm⟩ <;> rw [hmm]
    exact lookupTs_insertTs_ne _ _ _ _ (by decide)
  · have h1 : (stepCreate st e.ts e.msg).1 = processEntry dep cutoff st e := by rw [hc]
    obtain ⟨hmap1, -, hq⟩ := stepCreate_no_completion st e.ts e.msg hmsg
    rw [← h1]
    refine ⟨?_, by rw [hmap1]⟩
    rcases hq with hq | hq
    · exact hq.trans h
    · exact Option.noConfusion (h.symm.trans hq)
  · obtain ⟨hmap1, -, hq⟩ := stepCreate_no_completion st e.ts e.msg hmsg
    obtain ⟨-, -, -, g4, -, -, -, gall, -⟩ :=
      stepStart_frame (stepCreate st e.ts e.msg).1 e.ts e.msg
    rw [hc]
    refine ⟨?_, (gall _ (by decide) (by decide)).trans (by rw [hmap1])⟩
    rcases hq with hq | hq
    · exact g4.trans (hq.trans h)
    · exact Option.noConfusion (h.symm.trans hq)

/-- A duplicate start for the user-container start phase (no completion
marker) leaves the pending start and the start interval untouched. -/
theorem startUserDupStart (dep : String) (cutoff : Int) (st : ScanState) (e : LogEntry)
    (t : Int) (h : st.userContainerCreate = some t)
    (hmsg : strContains e.msg "returns successfully" = false) :
    (processEntry dep cutoff st e).userContainerCreate = some t ∧
    lookupTs "StartContainerUserContainer" (processEntry dep cutoff st e).tsMap
      = lookupTs "StartContainerUserContainer" st.tsMap := by
  rcases processEntry_cases dep cutoff st e with hc | ⟨hrs, hc⟩ | hc | hc | hc | ⟨hb, hc⟩
  · rw [hc]
    exact ⟨h, rfl⟩
  · rw [hc]
    exact ⟨h, rfl⟩
  · obtain ⟨-, -, -, -, h5, -, -, -, -, hmap⟩ := trySandboxDone_spec st e.ts e.msg _ hc
    refine ⟨h5.trans h, ?_⟩
    rcases hmap with ⟨-, hmm⟩ | ⟨s, -, hmm⟩ <;> rw [hmm]
    exact lookupTs_insertTs_ne _ _ _ _ (by decide)
  · obtain ⟨-, -, -, h5, -, -, -, -, hpull⟩ := tryPull_spec st e.ts e.msg _ hc
    refine ⟨h5.trans h, ?_⟩
    rcases hpull with ⟨-, -, hmm⟩ | ⟨s, -, -, -, hmm⟩ <;> rw [hmm]
    exact lookupTs_insertTs_ne _ _ _ _ (by decide)
  · have h1 : (stepCreate st e.ts e.msg).1 = processEntry dep cutoff st e := by rw [hc]
    obtain ⟨-, -, f3, -, -, fall, -⟩ := stepCreate_frame st e.ts e.msg
    rw [← h1]
    exact ⟨f3.trans h, fall _ (by decide) (by decide)⟩
  · obtain ⟨-, -, f3, -, -, fall, -⟩ := stepCreate_frame st e.ts e.msg
    obtain ⟨hmap2, hu, -⟩ :=
      stepStart_no_completion (stepCreate st e.ts e.msg).1 e.ts e.msg hmsg
    rw [hc]
    refine ⟨?_, by rw [hmap2]; exact fall _ (by decide) (by decide)⟩
    rcases hu with hu | hu
    · exact hu.trans (f3.trans h)
    · exact Option.noConfusion ((f3.trans h).symm.trans hu)

/-- A duplicate start for the queue-proxy start phase leaves the pending
start and the start interval untouched. -/
theorem startQueueDupStart (dep : String) (cutoff : Int) (st : ScanState) (e : LogEntry)
    (t : Int) (h : st.queueProxyCreate = some t)
    (hmsg : strContains e.msg "returns successfully" = false) :
    (processEntry dep cutoff st e).queueProxyCreate = some t ∧
    lookupTs "StartContainerQueueProxy" (processEntry dep cutoff st e).tsMap
      = lookupTs "StartContainerQueueProxy" st.tsMap := by
  rcases processEntry_cases dep cutoff st e with hc | ⟨hrs, hc⟩ | hc | hc | hc | ⟨hb, hc⟩
  · rw [hc]
    exact ⟨h, rfl⟩
  · rw [hc]
    exact ⟨h, rfl⟩
  · obtain ⟨-, -, -, -, -, h6, -, -, -, hmap⟩ := trySandboxDone_spec st e.ts e.msg _ hc
    refine ⟨h6.trans h, ?_⟩
    rcases hmap with ⟨-, hmm⟩ | ⟨s, -, hmm⟩ <;> rw [hmm]
    exact lookupTs_insertTs_ne _ _ _ _ (by decide)
  · obtain ⟨-, -, -, -, h6, -, -, -, hpull⟩ := tryPull_spec st e.ts e.msg _ hc
    refine ⟨h6.trans h, ?_⟩
    rcases hpull with ⟨-, -, hmm⟩ | ⟨s, -, -, -, hmm⟩ <;> rw [hmm]
    exact lookupTs_insertTs_ne _ _ _ _ (by decide)
  · have h1 : (stepCreate st e.ts e.msg).1 = processEntry dep cutoff st e := by rw [hc]
    obtain ⟨-, -, -, f4, -, fall, -⟩ := stepCreate_frame st e.ts e.msg
    rw [← h1]
    exact ⟨f4.trans h, fall _ (by decide) (by decide)⟩
  · obtain ⟨-, -, -, f4, -, fall, -⟩ := stepCreate_frame st e.ts e.msg
    obtain ⟨hmap2, -, hq⟩ :=
      stepStart_no_completion (stepCreate st e.ts e.msg).1 e.ts e.msg hmsg
    rw [hc]
    refine ⟨?_, by rw [hmap2]; exact fall _ (by decide) (by decide)⟩
    rcases hq with hq | hq
    · exact hq.trans (f4.trans h)
    · exact Option.noConfusion ((f4.trans h).symm.trans hq)

/-- A pull completion while a pull start is pending emits the interval with
the stored (first) start timestamp. -/
theorem pullUsesFirstStart (st : ScanState) (ts : Int) (msg : String) (t : Int)
    (h : st.pullImageStart = some t)
    (hpi : strContains msg "PullImage" = true)
    (hret : strContains msg "returns image reference" = true) :
    tryPull st ts msg = some { st with tsMap := insertTs "PullImage" (t, ts) st.tsMap } := by
  unfold tryPull
  rw [h]
  simp [hpi, hret]

end Sc2

namespace Sc2

/-- C6: for every phase, once a start line has recorded the phase's pending
start, further start lines (lines without the phase's completion marker)
are ignored: the pending start keeps its first value and the phase's map
entry is unchanged; the sandbox and pull pending starts are never cleared
or overwritten at all, so for the image-pull phase only the first PullImage
occurrence across the whole run ever sets the pending start, and a later
pull completion emits the interval with that first timestamp as its start. -/
theorem duplicate_start_first_wins (dep : String) (cutoff : Int) (st : ScanState)
    (e : LogEntry) (t : Int) (rest : List LogEntry) :
    (st.runSandboxStart = some t →
      (processEntry dep cutoff st e).runSandboxStart = some t) ∧
    (st.pullImageStart = some t →
      (processEntry dep cutoff st e).pullImageStart = some t) ∧
    (st.pullImageStart = some t →
      (rest.foldl (processEntry dep cutoff) st).pullImageStart = some t) ∧
    (strContains e.msg "returns sandbox id" = false →
      lookupTs "RunPodSandbox" (processEntry dep cutoff st e).tsMap
        = lookupTs "RunPodSandbox" st.tsMap) ∧
    (strContains e.msg "returns image reference" = false →
      lookupTs "PullImage" (processEntry dep cutoff st e).tsMap
        = lookupTs "PullImage" st.tsMap) ∧
    (st.pullImageStart = some t → strContains e.msg "PullImage" = true →
      strContains e.msg "returns image reference" = true →
      tryPull st e.ts e.msg
        = some { st with tsMap := insertTs "PullImage" (t, e.ts) st.tsMap }) ∧
    (st.userContainerStart = some t → strContains e.msg "returns container id" = false →
      (processEntry dep cutoff st e).userContainerStart = some t ∧
      lookupTs "CreateContainerUserContainer" (processEntry dep cutoff st e).tsMap
        = lookupTs "CreateContainerUserContainer" st.tsMap) ∧
    (st.queueProxyStart = some t → strContains e.msg "returns container id" = false →
      (processEntry dep cutoff st e).queueProxyStart = some t ∧
      lookupTs "CreateContainerQueueProxy" (processEntry dep cutoff st e).tsMap
        = lookupTs "CreateContainerQueueProxy" st.tsMap) ∧
    (st.userContainerCreate = some t → strContains e.msg "returns successfully" = false →
      (processEntry dep cutoff st e).userContainerCreate = some t ∧
      lookupTs "StartContainerUserContainer" (processEntry dep cutoff st e).tsMap
        = lookupTs "StartContainerUserContainer" st.tsMap) ∧
    (st.queueProxyCreate = some t → strContains e.msg "returns successfully" = false →
      (processEntry dep cutoff st e).queueProxyCreate = some t ∧
      lookupTs "StartContainerQueueProxy" (processEntry dep cutoff st e).tsMap
        = lookupTs "StartContainerQueueProxy" st.tsMap) :=
  ⟨fun h => sandboxPendingPreserved dep cutoff st e t h,
    fun h => pullPendingPreserved dep cutoff st e t h,
    fun h => foldlPullPreserved dep cutoff rest st t h,
    fun h => sandboxKeyUnchanged dep cutoff st e h,
    fun h => pullKeyUnchanged dep cutoff st e h,
    fun h hpi hret => pullUsesFirstStart st e.ts e.msg t h hpi hret,
    fun h hm => createUserDupStart dep cutoff st e t h hm,
    fun h hm => createQueueDupStart dep cutoff st e t h hm,
    fun h hm => startUserDupStart dep cutoff st e t h hm,
    fun h hm => startQueueDupStart dep cutoff st e t h hm⟩

/-- Witness for `duplicate_start_first_wins`: a second `PullImage` line while
the pull start 5 is pending leaves the pending start at 5. -/
theorem duplicate_start_first_wins_witness :
    (processEntry "dep" 0 { initState with pullImageStart := some 5 }
      { ts := 9, msg := "PullImage again" }).pullImageStart = some 5 :=
  (duplicate_start_first_wins "dep" 0 { initState with pullImageStart := some 5 }
    { ts := 9, msg := "PullImage again" } 5 []).2.1 rfl

end Sc2

namespace Sc2

/-- A sandbox completion (discovering id `abc123`) followed by creation
lines that carry both role discriminators at once. -/
def bothRolesStream : List LogEntry :=
  [ { ts := 1, msg := "RunPodSandbox for sandbox name other-fn returns sandbox id \\\"abc123\\\"" },
    { ts := 2, msg := "CreateContainer within sandbox abc123 for user-container and queue-proxy" },
    { ts := 3, msg := "CreateContainer within sandbox abc123 for user-container and queue-proxy returns container id \\\"beef\\\"" } ]

/-- C7 counterexample: a creation line containing both role discriminators is
not ignored: it is attributed to the user-container role, sets that role's
pending start, stores the extracted id as the user container id, and a
completion emits the `CreateContainerUserContainer` interval. -/
theorem both_discriminators_attributed_to_user :
    (processEntries "dep-42" 0 (bothRolesStream.take 2)).userContainerStart = some 2 ∧
    (processEntries "dep-42" 0 bothRolesStream).tsMap
      = [("CreateContainerUserContainer", (2, 3))] ∧
    (processEntries "dep-42" 0 bothRolesStream).userContainerId = "beef" := by
  decide

/-- C7 (amended): in the container-creation section, a line carrying neither
role discriminator is ignored entirely; a line carrying `user-container` —
even if it also carries `queue-proxy` — is attributed to the user-container
branch (tested first), which never touches the queue-proxy state. -/
theorem createcontainer_role_attribution (st : ScanState) (ts : Int) (msg : String) :
    (strContains msg "user-container" = false → strContains msg "queue-proxy" = false →
      stepCreate st ts msg = (st, false)) ∧
    (strContains msg "user-container" = true →
      (!st.sbxId.isEmpty && strContains msg "CreateContainer"
        && strContains msg st.sbxId) = true →
      stepCreate st ts msg = createUser st ts msg) ∧
    ((createUser st ts msg).1.queueProxyStart = st.queueProxyStart ∧
      (createUser st ts msg).1.queueProxyContainerId = st.queueProxyContainerId ∧
      lookupTs "CreateContainerQueueProxy" (createUser st ts msg).1.tsMap
        = lookupTs "CreateContainerQueueProxy" st.tsMap) := by
  refine ⟨?_, ?_, ?_⟩
  · intro hu hq
    unfold stepCreate
    simp [hu, hq]
  · intro hu hg
    unfold stepCreate
    simp [hu, hg]
  · rcases createUser_cases st ts msg with ⟨hs, hc⟩ | hc | ⟨s, cid, hs, hret, hcid, hc⟩ <;>
      rw [hc]
    · exact ⟨rfl, rfl, rfl⟩
    · exact ⟨rfl, rfl, rfl⟩
    · exact ⟨rfl, rfl, lookupTs_insertTs_ne _ _ _ _ (by decide)⟩

/-- Witness for `createcontainer_role_attribution`: a creation line with
neither discriminator leaves the fresh state untouched. -/
theorem createcontainer_role_attribution_witness :
    stepCreate initState 1 "CreateContainer plain" = (initState, false) :=
  (createcontainer_role_attribution initState 1 "CreateContainer plain").1
    (by decide) (by decide)

/-- C9 (amended): a raw line that is not valid JSON, or whose timestamp field
is present but not a numeric string (or not a string at all), aborts the
scan with a panic; only a line missing the timestamp or the message field
is skipped — silently — with the state unchanged. -/
theorem malformed_line_handling (dep : String) (cutoff : Int) (st : ScanState)
    (tf mf : JsonField) :
    processRawLine dep cutoff st .invalid = .error "serde_json unwrap panic" ∧
    processRawLine dep cutoff st (.record none (some mf)) = .ok st ∧
    processRawLine dep cutoff st (.record (some tf) none) = .ok st ∧
    processRawLine dep cutoff st (.record none none) = .ok st ∧
    processRawLine dep cutoff st (.record (some (.str "garbage")) (some mf))
      = .error "parse_timestamp unwrap panic" ∧
    processRawLine dep cutoff st (.record (some .nonStr) (some mf))
      = .error "parse_timestamp unwrap panic" := by
  exact ⟨rfl, rfl, rfl, rfl, rfl, rfl⟩

end Sc2
